import Mathlib

/-!
Verification of the 6unpack archive extractor (src/6pack/6unpack.c).

The C program is shallowly embedded: byte streams are lists of naturals
(each < 256 in practice, though the definitions are total), machine
integers are naturals with explicit masking where the C code masks, and
the stateful extraction loop of unpack_file becomes explicit state
passing over a record type.  Environment effects that the program merely
consumes (malloc success, fopen(.., wb) success, the external FastLZ
decompressor) are oracles carried in an Env record.
-/

namespace SixPack

/-- BLOCK_SIZE as in the source (default, no override). -/
def BLOCK_SIZE : Nat := 65536

/-- ADLER32_BASE from the source. -/
def ADLER32_BASE : Nat := 65521

/-- Raw Adler accumulation: for each byte, s1 += b; s2 += s1, with no
modular reduction.  This is exactly what both inner loops of
update_adler32 (the 8-way unrolled one and the remainder one) do per
byte. -/
def adlerBytes : Nat → Nat → List Nat → Nat × Nat
  | s1, s2, [] => (s1, s2)
  | s1, s2, b :: rest => adlerBytes (s1 + b) (s2 + s1 + b) rest

/-- The body of update_adler32, written per byte with a countdown k of
bytes remaining in the current 5552-byte sub-block: when k runs out both
accumulators are reduced mod 65521 and k is reset to
min (remaining length) 5552, exactly as the outer while-loop of the C
code recomputes k = len < 5552 ? len : 5552 and reduces after each
sub-block.  On empty input the accumulators are returned unreduced,
matching the C code, whose outer loop body never runs then. -/
def adlerGo : List Nat → Nat → Nat → Nat → Nat × Nat
  | [], s1, s2, _ => (s1, s2)
  | b :: rest, s1, s2, k =>
    if k ≤ 1 then
      adlerGo rest ((s1 + b) % ADLER32_BASE) ((s2 + s1 + b) % ADLER32_BASE)
        (min rest.length 5552)
    else
      adlerGo rest (s1 + b) (s2 + s1 + b) (k - 1)

/-- update_adler32 from the source: s1 = checksum & 0xffff,
s2 = (checksum >> 16) & 0xffff, blockwise accumulation with reduction
mod 65521 every at most 5552 bytes, result (s2 << 16) + s1.  All C
arithmetic here is on unsigned long and never overflows (the 5552 bound
keeps both sums below 2^32), so plain Nat arithmetic is faithful. -/
def update_adler32 (checksum : Nat) (bytes : List Nat) : Nat :=
  let s1 := checksum % 65536
  let s2 := checksum / 65536 % 65536
  let r := adlerGo bytes s1 s2 (min bytes.length 5552)
  r.2 * 65536 + r.1

/-- Magic identifier for a 6pack file. -/
def sixpack_magic : List Nat := [137, 54, 80, 75, 13, 10, 26, 10]

/-- A seekable input stream: its bytes and the current read position. -/
structure Stream where
  data : List Nat
  pos : Nat
  deriving DecidableEq

/-- detect_magic: seek to the start, read 8 bytes, seek back to the
start, fail on a short read, otherwise compare the 8 bytes one by one
against sixpack_magic.  Returns the C result as a Bool (the C function
returns -1, i.e. nonzero, on success) together with the stream, which
is always left at position 0. -/
def detect_magic (s : Stream) : Bool × Stream :=
  let buffer := s.data.take 8
  let s2 : Stream := { s with pos := 0 }
  if buffer.length < 8 then (false, s2)
  else ((List.range 8).all fun c => buffer.getD c 0 == sixpack_magic.getD c 0, s2)

/-- readU16: ptr[0] + (ptr[1] << 8).  Bytes past the end of the list
read as 0 (the C buffer is only ever short on a short fread, whose tail
we model as zero-filled). -/
def readU16 (l : List Nat) : Nat := l.getD 0 0 + l.getD 1 0 * 256

/-- readU32: ptr[0] + (ptr[1] << 8) + (ptr[2] << 16) + (ptr[3] << 24). -/
def readU32 (l : List Nat) : Nat :=
  l.getD 0 0 + l.getD 1 0 * 256 + l.getD 2 0 * 65536 + l.getD 3 0 * 16777216

/-- A decoded chunk header. -/
structure ChunkHeader where
  id : Nat
  options : Nat
  size : Nat
  checksum : Nat
  extra : Nat
  deriving DecidableEq

/-- read_chunk_header: decode a 16-byte little-endian record; the C code
masks id and options with 0xffff and the three wide fields with
0xffffffff. -/
def read_chunk_header (buffer : List Nat) : ChunkHeader :=
  { id := readU16 buffer % 65536
    options := readU16 (buffer.drop 2) % 65536
    size := readU32 (buffer.drop 4) % 4294967296
    checksum := readU32 (buffer.drop 8) % 4294967296
    extra := readU32 (buffer.drop 12) % 4294967296 }

/-- Modelled from the spec: little-endian encoder for a u16, the inverse
direction of readU16.  The archive writer is not part of src/, so the
encoding side is taken from the spec text of the container format. -/
def writeU16 (v : Nat) : List Nat := [v % 256, v / 256 % 256]

/-- Modelled from the spec: little-endian encoder for a u32. -/
def writeU32 (v : Nat) : List Nat :=
  [v % 256, v / 256 % 256, v / 65536 % 256, v / 16777216 % 256]

/-- Modelled from the spec: encode a chunk header into the fixed 16-byte
little-endian layout (id at 0-1, options at 2-3, size at 4-7, checksum
at 8-11, extra at 12-15). -/
def encode_chunk_header (h : ChunkHeader) : List Nat :=
  writeU16 h.id ++ writeU16 h.options ++ writeU32 h.size ++
    writeU32 h.checksum ++ writeU32 h.extra

/-- The chunk header decoded at stream offset p (fread of 16 bytes; on a
short read the missing tail is modelled as zero bytes). -/
def headerAt (arch : List Nat) (p : Nat) : ChunkHeader :=
  read_chunk_header ((arch.drop p).take 16)

/-- The size bytes of raw payload following the 16-byte header of the
chunk whose header starts at offset p. -/
def payloadAt (arch : List Nat) (p n : Nat) : List Nat :=
  (arch.drop (p + 16)).take n

/-- fread semantics into the front of an existing buffer: the freshly
read bytes overwrite the front, the stale tail is kept. -/
def freadInto (dst src : List Nat) : List Nat := src ++ dst.drop src.length

/-- Append bytes to the file of the given name (fwrite on the open
handle).  The name is always present when this is called. -/
def appendFile (fs : List (List Nat × List Nat)) (name bytes : List Nat) :
    List (List Nat × List Nat) :=
  fs.map fun p => if p.1 = name then (p.1, p.2 ++ bytes) else p

/-- Buffer growth as in the source: if needed > bufsize then set bufsize
to needed, free the old buffer and malloc a new one (whose contents are
uninitialized; modelled as zero-filled).  Returns the new buffer (none
on malloc failure, as in the source, which stores the null result), the
new bufsize, and how many malloc calls were made (0 or 1).  Note the
bufsize is updated even when malloc fails, as in the source. -/
def growBuffer (buf : Option (List Nat)) (bufsize needed : Nat) (ok : Bool) :
    Option (List Nat) × Nat × Nat :=
  if needed > bufsize then
    (if ok then some (List.replicate needed 0) else none, needed, 1)
  else (buf, bufsize, 0)

/-- The oracles the program consumes: the archive bytes, the names
already present on disk before the run, whether fopen(name,"wb")
succeeds, whether the n-th malloc of the run succeeds, and the external
fastlz_decompress primitive (its int return value and the bytes it
writes to the output buffer). -/
structure Env where
  arch : List Nat
  preexist : List (List Nat)
  canCreate : List Nat → Bool
  allocOk : Nat → Bool
  decompress : List Nat → Nat → Int × List Nat

/-- The mutable state of unpack_file across loop iterations. -/
structure St where
  pos : Nat
  buffer : List Nat
  outputFile : Option (List Nat)
  fOpen : Bool
  totalExtracted : Nat
  decompressedSize : Nat
  compressedBuf : Option (List Nat)
  compressedBufsize : Nat
  decompressedBuf : Option (List Nat)
  decompressedBufsize : Nat
  allocCount : Nat
  created : List (List Nat × List Nat)
  deriving DecidableEq

/-- An all-empty state, used as the junk value of partial projections. -/
def emptySt : St :=
  { pos := 0, buffer := [], outputFile := none, fOpen := false,
    totalExtracted := 0, decompressedSize := 0, compressedBuf := none,
    compressedBufsize := 0, decompressedBuf := none,
    decompressedBufsize := 0, allocCount := 0, created := [] }

/-- Outcome of processing one chunk (one iteration body, before the
final fseek): continue with a new state, return -1 on a file-entry
checksum mismatch, call abort() on a failed mandatory allocation, or
invoke fastlz_decompress with a null output buffer (undefined
behavior in the C program). -/
inductive Outcome where
  | next (s : St)
  | fatalChecksum (s : St)
  | abortCalled
  | nullDeref
  deriving DecidableEq

def Outcome.isNext : Outcome → Bool
  | .next _ => true
  | _ => false

def Outcome.stOf : Outcome → St
  | .next s => s
  | .fatalChecksum s => s
  | _ => emptySt

/-- The stream bytes available for payload reads of the current chunk:
everything after its 16-byte header (fread of the header advances the
position by at most the bytes available). -/
def chunkAvail (e : Env) (s : St) : List Nat :=
  e.arch.drop (min (s.pos + 16) e.arch.length)

/-- The id == 1 (file entry) branch of unpack_file, lines 275-376:
close any current output, read size payload bytes into the stack
buffer, verify the Adler-32 checksum of the raw payload (mismatch is a
fatal return -1), then parse decompressed_size, reset total_extracted,
clamp name_length to size - 10, malloc the name (failure aborts), skip
the entry if the file exists or cannot be created, else create it. -/
def processFileEntry (e : Env) (s : St) (hdr : ChunkHeader) : Outcome :=
  let got := (chunkAvail e s).take hdr.size
  let buf2 := freadInto s.buffer got
  let window := buf2.take hdr.size
  if update_adler32 1 window ≠ hdr.checksum then
    Outcome.fatalChecksum { s with outputFile := none, fOpen := false, buffer := buf2 }
  else
    let dsize := readU32 window
    let nl0 := readU16 (window.drop 8)
    let nl := if nl0 > hdr.size - 10 then hdr.size - 10 else nl0
    if e.allocOk s.allocCount = false then Outcome.abortCalled
    else
      let name := (window.drop 10).take nl
      let s1 := { s with outputFile := none, fOpen := false, buffer := buf2,
                         decompressedSize := dsize, totalExtracted := 0,
                         allocCount := s.allocCount + 1 }
      if name ∈ e.preexist ∨ name ∈ s.created.map Prod.fst then
        Outcome.next s1
      else if e.canCreate name = false then
        Outcome.next s1
      else
        Outcome.next { s1 with outputFile := some name, fOpen := true,
                               created := s.created ++ [(name, [])] }

/-- The stored-chunk streaming loop of unpack_file, lines 391-404: read
at most BLOCK_SIZE bytes at a time from the stream into the stack
buffer, write them to the output and fold them into the checksum, until
remaining is 0 or a read returns no bytes.  Returns the final stack
buffer, the final checksum and the bytes written.  The first argument
is fuel equal to the initial remaining count, which suffices because
every iteration consumes at least one byte of remaining. -/
def storedLoopF : Nat → List Nat → Nat → List Nat → Nat →
    List Nat × Nat × List Nat
  | _, _, 0, buffer, cs => (buffer, cs, [])
  | 0, _, _, buffer, cs => (buffer, cs, [])
  | fuel + 1, avail, rem + 1, buffer, cs =>
    let r := min BLOCK_SIZE (rem + 1)
    let chunk := avail.take r
    if chunk.length = 0 then (buffer, cs, [])
    else
      let rest := storedLoopF fuel (avail.drop chunk.length)
        (rem + 1 - chunk.length) (freadInto buffer chunk)
        (update_adler32 cs chunk)
      (rest.1, rest.2.1, chunk ++ rest.2.2)

def storedLoop (avail : List Nat) (remaining : Nat) (buffer : List Nat)
    (cs : Nat) : List Nat × Nat × List Nat :=
  storedLoopF remaining avail remaining buffer cs

/-- Growth of the compressed-input buffer for the current chunk
(sized by the chunk size field), lines 423-431. -/
def growC (e : Env) (s : St) (hdr : ChunkHeader) :
    Option (List Nat) × Nat × Nat :=
  growBuffer s.compressedBuf s.compressedBufsize hdr.size
    (e.allocOk s.allocCount)

/-- Growth of the decompressed-output buffer for the current chunk
(sized by the chunk extra field), lines 433-441; its malloc, if any,
is the one after that of the compressed buffer. -/
def growD (e : Env) (s : St) (hdr : ChunkHeader) :
    Option (List Nat) × Nat × Nat :=
  growBuffer s.decompressedBuf s.decompressedBufsize hdr.extra
    (e.allocOk (s.allocCount + (growC e s hdr).2.2))

/-- The id == 17 (data chunk) branch of unpack_file, lines 378-528,
reached only with an open session.  options = 0: stream the payload to
the output, then verify the checksum, abandoning the current file on
mismatch.  options = 1: grow the two buffers on demand (abort if the
compressed buffer is null), read and checksum the payload (mismatch
abandons the file), then run fastlz_decompress - with a null output
buffer this is undefined behavior, surfaced as Outcome.nullDeref;
a result different from extra abandons the file, else extra bytes are
written.  Any other options value abandons the file.  In the source
total_extracted is increased by size (stored) or extra (compressed)
before any verification. -/
def processData (e : Env) (s : St) (hdr : ChunkHeader) : Outcome :=
  if hdr.options = 0 then
    let sl := storedLoop (chunkAvail e s) hdr.size s.buffer 1
    let created2 := appendFile s.created (s.outputFile.getD []) sl.2.2
    if sl.2.1 ≠ hdr.checksum then
      Outcome.next { s with buffer := sl.1,
                            totalExtracted := s.totalExtracted + hdr.size,
                            created := created2, fOpen := false,
                            outputFile := none }
    else
      Outcome.next { s with buffer := sl.1,
                            totalExtracted := s.totalExtracted + hdr.size,
                            created := created2 }
  else if hdr.options = 1 then
    let g1 := growC e s hdr
    let g2 := growD e s hdr
    let ac2 := s.allocCount + g1.2.2 + g2.2.2
    match g1.1 with
    | none => Outcome.abortCalled
    | some cb =>
      let cb2 := freadInto cb ((chunkAvail e s).take hdr.size)
      let body := cb2.take hdr.size
      let s1 := { s with compressedBuf := some cb2, compressedBufsize := g1.2.1,
                         decompressedBuf := g2.1, decompressedBufsize := g2.2.1,
                         allocCount := ac2,
                         totalExtracted := s.totalExtracted + hdr.extra }
      if update_adler32 1 body ≠ hdr.checksum then
        Outcome.next { s1 with fOpen := false, outputFile := none }
      else
        match g2.1 with
        | none => Outcome.nullDeref
        | some db =>
          let dres := e.decompress body hdr.extra
          if dres.1 ≠ (hdr.extra : Int) then
            Outcome.next { s1 with fOpen := false, outputFile := none }
          else
            let db2 := freadInto db (dres.2.take hdr.extra)
            let created2 := appendFile s.created (s.outputFile.getD [])
              (db2.take hdr.extra)
            Outcome.next { s1 with decompressedBuf := some db2, created := created2 }
  else
    Outcome.next { s with fOpen := false, outputFile := none }

/-- One iteration body of the main loop of unpack_file (without the
final fseek): decode the header at the current position and dispatch on
the chunk id, exactly as the two guarded blocks at lines 275 and 378;
any other id, or an id 17 chunk with no open session, is skipped. -/
def step (e : Env) (s : St) : Outcome :=
  let hdr := headerAt e.arch s.pos
  if hdr.id = 1 ∧ 10 < hdr.size ∧ hdr.size < BLOCK_SIZE then
    processFileEntry e s hdr
  else if hdr.id = 17 ∧ s.fOpen = true ∧ s.outputFile.isSome = true ∧
      s.decompressedSize ≠ 0 then
    processData e s hdr
  else
    Outcome.next s

/-- Result of unpack_file: ok models return 0, fatal models return -1,
aborted models a call to abort(), undef models the undefined behavior
of invoking fastlz_decompress with a null output buffer. -/
inductive RunResult where
  | ok (s : St)
  | fatal (s : St)
  | aborted
  | undef
  deriving DecidableEq

def RunResult.isOk : RunResult → Bool
  | .ok _ => true
  | _ => false

def RunResult.isFatal : RunResult → Bool
  | .fatal _ => true
  | _ => false

def RunResult.createdOf : RunResult → List (List Nat × List Nat)
  | .ok s => s.created
  | .fatal s => s.created
  | _ => []

def RunResult.totalOf : RunResult → Nat
  | .ok s => s.totalExtracted
  | .fatal s => s.totalExtracted
  | _ => 0

/-- The main loop of unpack_file with fuel: stop with return 0 once the
position reaches the stream length, otherwise process one chunk and
seek to pos + 16 + size.  Fuel bounds the iteration count; any fuel
above arch.length - pos is enough, since every iteration advances pos
by at least 16 (theorem loopF_congr below). -/
def loopF : Nat → Env → St → RunResult
  | 0, _, s => RunResult.ok s
  | fuel + 1, e, s =>
    if s.pos < e.arch.length then
      match step e s with
      | .next s2 =>
        loopF fuel e { s2 with pos := s.pos + 16 + (headerAt e.arch s.pos).size }
      | .fatalChecksum s2 => RunResult.fatal s2
      | .abortCalled => RunResult.aborted
      | .nullDeref => RunResult.undef
    else RunResult.ok s

/-- The main loop of unpack_file, run with adequate fuel. -/
def loop (e : Env) (s : St) : RunResult := loopF (e.arch.length + 1) e s

/-- The state after the initializations of unpack_file, positioned at
the first chunk (offset 8).  The stack buffer is BLOCK_SIZE bytes of
uninitialized memory, modelled as zeros. -/
def initSt : St :=
  { pos := 8, buffer := List.replicate BLOCK_SIZE 0, outputFile := none,
    fOpen := false, totalExtracted := 0, decompressedSize := 0,
    compressedBuf := none, compressedBufsize := 0, decompressedBuf := none,
    decompressedBufsize := 0, allocCount := 0, created := [] }

/-- unpack_file: fail with return -1 if the magic is absent, else run
the main loop from offset 8. -/
def unpack_file (e : Env) : RunResult :=
  if (detect_magic { data := e.arch, pos := 0 }).1 = true then loop e initSt
  else RunResult.fatal initSt

/-- The output file name the file-entry branch computes when the whole
payload is present: the bytes at payload offset 10, truncated to the
name_length read at offset 8, itself clamped to size - 10. -/
def entryName (e : Env) (s : St) (hdr : ChunkHeader) : List Nat :=
  ((payloadAt e.arch s.pos hdr.size).drop 10).take
    (if readU16 ((payloadAt e.arch s.pos hdr.size).drop 8) > hdr.size - 10
     then hdr.size - 10
     else readU16 ((payloadAt e.arch s.pos hdr.size).drop 8))

/-- The state after the file-entry branch has passed its checksum and
parsed the entry, before the exists/create dispatch. -/
def entryBaseSt (e : Env) (s : St) (hdr : ChunkHeader) : St :=
  { s with outputFile := none, fOpen := false,
           buffer := freadInto s.buffer (payloadAt e.arch s.pos hdr.size),
           decompressedSize := readU32 (payloadAt e.arch s.pos hdr.size),
           totalExtracted := 0, allocCount := s.allocCount + 1 }

/-- A 12-byte file-entry payload: decompressed_size 5, name_length 1,
name byte 97, one trailing byte beyond the name. -/
def entryPayload : List Nat := [5, 0, 0, 0, 0, 0, 0, 0, 1, 0, 97, 98]

/-- A 4-byte data payload used by the concrete scenarios. -/
def dataChunkBytes : List Nat := [1, 2, 3, 4]

/-- Scenario: archive whose single file-entry chunk carries a wrong
checksum field (9999). -/
def envC1 : Env :=
  { arch := sixpack_magic ++ encode_chunk_header ⟨1, 0, 12, 9999, 0⟩ ++
      entryPayload,
    preexist := [], canCreate := fun _ => true, allocOk := fun _ => true,
    decompress := fun _ _ => (0, []) }

/-- Scenario: a stream of 20 zero bytes (its first chunk header decodes
with id 0 and is skipped). -/
def envC3 : Env :=
  { arch := List.replicate 20 0, preexist := [], canCreate := fun _ => true,
    allocOk := fun _ => true, decompress := fun _ _ => (0, []) }

/-- Scenario: archive whose single file-entry chunk has a correct
checksum. -/
def envC7 : Env :=
  { arch := sixpack_magic ++
      encode_chunk_header ⟨1, 0, 12, update_adler32 1 entryPayload, 0⟩ ++
      entryPayload,
    preexist := [], canCreate := fun _ => true, allocOk := fun _ => true,
    decompress := fun _ _ => (0, []) }

/-- A state with an open extraction session for file name [97]. -/
def stOpen : St :=
  { emptySt with fOpen := true, outputFile := some [97],
                 decompressedSize := 5, created := [([97], [])] }

/-- Scenario: a stored data chunk with a wrong checksum field. -/
def envC2a : Env :=
  { arch := encode_chunk_header ⟨17, 0, 4, 999, 0⟩ ++ dataChunkBytes,
    preexist := [], canCreate := fun _ => true, allocOk := fun _ => true,
    decompress := fun _ _ => (0, []) }

/-- Scenario: a compressed data chunk with a wrong checksum field. -/
def envC2b : Env :=
  { arch := encode_chunk_header ⟨17, 1, 4, 999, 7⟩ ++ dataChunkBytes,
    preexist := [], canCreate := fun _ => true, allocOk := fun _ => true,
    decompress := fun _ _ => (0, []) }

/-- Scenario: a compressed data chunk whose checksum is correct but
whose decompression yields 3 bytes instead of extra = 7. -/
def envC2c : Env :=
  { arch := encode_chunk_header ⟨17, 1, 4, update_adler32 1 dataChunkBytes, 7⟩ ++
      dataChunkBytes,
    preexist := [], canCreate := fun _ => true, allocOk := fun _ => true,
    decompress := fun _ _ => (3, [0, 0, 0]) }

/-- Scenario: a data chunk with the unknown options value 2. -/
def envC2d : Env :=
  { arch := encode_chunk_header ⟨17, 2, 4, 0, 0⟩ ++ dataChunkBytes,
    preexist := [], canCreate := fun _ => true, allocOk := fun _ => true,
    decompress := fun _ _ => (0, []) }

/-- Scenario: a good file entry followed by a good compressed data
chunk, where the third malloc of the run (the decompressed-output
buffer) fails. -/
def envC8a : Env :=
  { arch := sixpack_magic ++
      encode_chunk_header ⟨1, 0, 12, update_adler32 1 entryPayload, 0⟩ ++
      entryPayload ++
      encode_chunk_header ⟨17, 1, 4, update_adler32 1 dataChunkBytes, 7⟩ ++
      dataChunkBytes,
    preexist := [], canCreate := fun _ => true,
    allocOk := fun n => n != 2,
    decompress := fun _ _ => (7, [9, 9, 9, 9, 9, 9, 9]) }

/-- Scenario: as envC8a but the second malloc of the run (the
compressed-input buffer) fails. -/
def envC8b : Env := { envC8a with allocOk := fun n => n != 1 }

/-- Scenario: a good file entry followed by a compressed data chunk
whose checksum field (999) is wrong, with all allocations succeeding. -/
def envC9 : Env :=
  { arch := sixpack_magic ++
      encode_chunk_header ⟨1, 0, 12, update_adler32 1 entryPayload, 0⟩ ++
      entryPayload ++
      encode_chunk_header ⟨17, 1, 4, 999, 7⟩ ++ dataChunkBytes,
    preexist := [], canCreate := fun _ => true, allocOk := fun _ => true,
    decompress := fun _ _ => (7, [9, 9, 9, 9, 9, 9, 9]) }

theorem adlerBytes_append (x y : List Nat) : ∀ s1 s2,
    adlerBytes s1 s2 (x ++ y) =
      adlerBytes (adlerBytes s1 s2 x).1 (adlerBytes s1 s2 x).2 y := by
  induction x with
  | nil => intro s1 s2; rfl
  | cons b rest ih =>
    intro s1 s2
    simp only [List.cons_append, adlerBytes]
    exact ih (s1 + b) (s2 + s1 + b)

theorem adlerBytes_mod_congr (l : List Nat) : ∀ s1 s2 t1 t2,
    s1 % 65521 = t1 % 65521 → s2 % 65521 = t2 % 65521 →
    (adlerBytes s1 s2 l).1 % 65521 = (adlerBytes t1 t2 l).1 % 65521 ∧
      (adlerBytes s1 s2 l).2 % 65521 = (adlerBytes t1 t2 l).2 % 65521 := by
  induction l with
  | nil => intro s1 s2 t1 t2 h1 h2; exact ⟨h1, h2⟩
  | cons b rest ih =>
    intro s1 s2 t1 t2 h1 h2
    simp only [adlerBytes]
    exact ih (s1 + b) (s2 + s1 + b) (t1 + b) (t2 + t1 + b)
      (by omega) (by omega)

theorem adlerGo_spec (l : List Nat) : ∀ s1 s2 k, 1 ≤ k → k ≤ l.length →
    adlerGo l s1 s2 k =
      ((adlerBytes s1 s2 l).1 % 65521, (adlerBytes s1 s2 l).2 % 65521) := by
  induction l with
  | nil => intro s1 s2 k h1 h2; simp at h2; omega
  | cons b rest ih =>
    intro s1 s2 k h1 h2
    simp only [adlerGo, adlerBytes, ADLER32_BASE]
    by_cases hk : k ≤ 1
    · rw [if_pos hk]
      cases rest with
      | nil => simp [adlerGo, adlerBytes]
      | cons c t =>
        rw [ih _ _ _ (by simp) (by simp [Nat.min_le_left])]
        have hcon := adlerBytes_mod_congr (c :: t) ((s1 + b) % 65521)
          ((s2 + s1 + b) % 65521) (s1 + b) (s2 + s1 + b)
          (by omega) (by omega)
        rw [hcon.1, hcon.2]
    · rw [if_neg hk]
      have hlen : k - 1 ≤ rest.length := by
        simp only [List.length_cons] at h2; omega
      exact ih _ _ _ (by omega) hlen

theorem update_adler32_empty (c : Nat) (h : c < 4294967296) :
    update_adler32 c [] = c := by
  simp only [update_adler32, adlerGo]
  omega

theorem update_adler32_ne_nil (c : Nat) (l : List Nat) (h : l ≠ []) :
    update_adler32 c l =
      ((adlerBytes (c % 65536) (c / 65536 % 65536) l).2 % 65521) * 65536 +
        (adlerBytes (c % 65536) (c / 65536 % 65536) l).1 % 65521 := by
  simp only [update_adler32]
  rw [adlerGo_spec l _ _ _ (by cases l with | nil => simp at h | cons a t => simp)
    (Nat.min_le_left _ _)]

theorem update_adler32_lt (c : Nat) (l : List Nat) :
    update_adler32 c l < 4294967296 := by
  cases l with
  | nil =>
    simp only [update_adler32, adlerGo]
    omega
  | cons b t =>
    rw [update_adler32_ne_nil c (b :: t) (by simp)]
    have h1 := Nat.mod_lt (adlerBytes (c % 65536) (c / 65536 % 65536) (b :: t)).1
      (y := 65521) (by omega)
    have h2 := Nat.mod_lt (adlerBytes (c % 65536) (c / 65536 % 65536) (b :: t)).2
      (y := 65521) (by omega)
    omega

theorem freadInto_take (buf got : List Nat) (n : Nat) (hlen : got.length = n) :
    (freadInto buf got).take n = got := by
  simp only [freadInto]
  rw [← hlen]
  exact List.take_left got _

/-- When the whole payload of the chunk at the current position is
present in the stream, the bytes the code reads for it are exactly
payloadAt, of length n. -/
theorem got_eq_payload (e : Env) (s : St) (n : Nat)
    (hfit : s.pos + 16 + n ≤ e.arch.length) :
    (chunkAvail e s).take n = payloadAt e.arch s.pos n ∧
      (payloadAt e.arch s.pos n).length = n := by
  have hmin : min (s.pos + 16) e.arch.length = s.pos + 16 := by omega
  simp only [chunkAvail, hmin]
  refine ⟨rfl, ?_⟩
  simp only [payloadAt, List.length_take, List.length_drop]
  omega

theorem loopF_congr (e : Env) : ∀ f f2 (s : St),
    e.arch.length - s.pos < f → e.arch.length - s.pos < f2 →
    loopF f e s = loopF f2 e s := by
  intro f
  induction f with
  | zero => intro f2 s h1 h2; omega
  | succ g ih =>
    intro f2 s h1 h2
    cases f2 with
    | zero => omega
    | succ g2 =>
      simp only [loopF]
      by_cases hp : s.pos < e.arch.length
      · rw [if_pos hp, if_pos hp]
        cases hstep : step e s with
        | next s2 =>
          exact ih g2 _
            (by show e.arch.length - (s.pos + 16 + (headerAt e.arch s.pos).size) < g
                omega)
            (by show e.arch.length - (s.pos + 16 + (headerAt e.arch s.pos).size) < g2
                omega)
        | fatalChecksum s2 => rfl
        | abortCalled => rfl
        | nullDeref => rfl
      · rw [if_neg hp, if_neg hp]

/-- One-step unfolding of the main loop: the next iteration is run at
position pos + 16 + size, and the loop exits with return 0 once pos
reaches the end of the stream. -/
theorem loop_eq (e : Env) (s : St) :
    loop e s =
      if s.pos < e.arch.length then
        match step e s with
        | .next s2 =>
          loop e { s2 with pos := s.pos + 16 + (headerAt e.arch s.pos).size }
        | .fatalChecksum s2 => RunResult.fatal s2
        | .abortCalled => RunResult.aborted
        | .nullDeref => RunResult.undef
      else RunResult.ok s := by
  show loopF (e.arch.length + 1) e s = _
  simp only [loopF]
  by_cases hp : s.pos < e.arch.length
  · rw [if_pos hp, if_pos hp]
    cases hstep : step e s with
    | next s2 =>
      show loopF e.arch.length e _ = loopF (e.arch.length + 1) e _
      apply loopF_congr
      · show e.arch.length - (s.pos + 16 + (headerAt e.arch s.pos).size) <
          e.arch.length
        omega
      · show e.arch.length - (s.pos + 16 + (headerAt e.arch s.pos).size) <
          e.arch.length + 1
        omega
    | fatalChecksum s2 => rfl
    | abortCalled => rfl
    | nullDeref => rfl
  · rw [if_neg hp, if_neg hp]

theorem appendFile_map_fst (fs : List (List Nat × List Nat))
    (name bytes : List Nat) :
    (appendFile fs name bytes).map Prod.fst = fs.map Prod.fst := by
  induction fs with
  | nil => rfl
  | cons p t ih =>
    simp only [appendFile, List.map_cons] at ih ⊢
    rw [ih]
    congr 1
    split <;> rfl

theorem step_entry (e : Env) (s : St)
    (hid : (headerAt e.arch s.pos).id = 1)
    (h10 : 10 < (headerAt e.arch s.pos).size)
    (hbs : (headerAt e.arch s.pos).size < BLOCK_SIZE) :
    step e s = processFileEntry e s (headerAt e.arch s.pos) := by
  simp only [step]
  rw [if_pos ⟨hid, h10, hbs⟩]

theorem step_data (e : Env) (s : St)
    (hid : (headerAt e.arch s.pos).id = 17)
    (hf : s.fOpen = true) (ho : s.outputFile.isSome = true)
    (hd : s.decompressedSize ≠ 0) :
    step e s = processData e s (headerAt e.arch s.pos) := by
  simp only [step]
  rw [if_neg (by simp [hid]), if_pos ⟨hid, hf, ho, hd⟩]

/-- When the current chunk is processed with outcome next, the loop
recurses at position pos + 16 + size. -/
theorem loop_next (e : Env) (s : St) (hpos : s.pos < e.arch.length)
    (hn : Outcome.isNext (step e s) = true) :
    loop e s = loop e { (step e s).stOf with
      pos := s.pos + 16 + (headerAt e.arch s.pos).size } := by
  rw [loop_eq, if_pos hpos]
  cases hstep : step e s with
  | next s2 => rfl
  | fatalChecksum s2 => rw [hstep] at hn; exact absurd hn (by simp [Outcome.isNext])
  | abortCalled => rw [hstep] at hn; exact absurd hn (by simp [Outcome.isNext])
  | nullDeref => rw [hstep] at hn; exact absurd hn (by simp [Outcome.isNext])

theorem processFileEntry_mismatch (e : Env) (s : St) (hdr : ChunkHeader)
    (hfit : s.pos + 16 + hdr.size ≤ e.arch.length)
    (hcs : update_adler32 1 (payloadAt e.arch s.pos hdr.size) ≠ hdr.checksum) :
    processFileEntry e s hdr =
      Outcome.fatalChecksum { s with
        outputFile := none, fOpen := false,
        buffer := freadInto s.buffer (payloadAt e.arch s.pos hdr.size) } := by
  obtain ⟨hgot, hlen⟩ := got_eq_payload e s hdr.size hfit
  simp only [processFileEntry, hgot]
  rw [freadInto_take _ _ _ hlen, if_pos hcs]

theorem processFileEntry_ok (e : Env) (s : St) (hdr : ChunkHeader)
    (hfit : s.pos + 16 + hdr.size ≤ e.arch.length)
    (hcs : update_adler32 1 (payloadAt e.arch s.pos hdr.size) = hdr.checksum)
    (halloc : e.allocOk s.allocCount = true) :
    processFileEntry e s hdr =
      if entryName e s hdr ∈ e.preexist ∨
          entryName e s hdr ∈ s.created.map Prod.fst then
        Outcome.next (entryBaseSt e s hdr)
      else if e.canCreate (entryName e s hdr) = false then
        Outcome.next (entryBaseSt e s hdr)
      else
        Outcome.next { entryBaseSt e s hdr with
          outputFile := some (entryName e s hdr), fOpen := true,
          created := s.created ++ [(entryName e s hdr, [])] } := by
  obtain ⟨hgot, hlen⟩ := got_eq_payload e s hdr.size hfit
  simp only [processFileEntry, hgot]
  rw [freadInto_take _ _ _ hlen]
  rw [if_neg (fun hne => hne hcs), if_neg (by simp [halloc])]
  rfl

theorem processData_stored (e : Env) (s : St) (hdr : ChunkHeader)
    (hopt : hdr.options = 0) :
    processData e s hdr =
      if (storedLoop (chunkAvail e s) hdr.size s.buffer 1).2.1 ≠ hdr.checksum then
        Outcome.next { s with
          buffer := (storedLoop (chunkAvail e s) hdr.size s.buffer 1).1,
          totalExtracted := s.totalExtracted + hdr.size,
          created := appendFile s.created (s.outputFile.getD [])
            (storedLoop (chunkAvail e s) hdr.size s.buffer 1).2.2,
          fOpen := false, outputFile := none }
      else
        Outcome.next { s with
          buffer := (storedLoop (chunkAvail e s) hdr.size s.buffer 1).1,
          totalExtracted := s.totalExtracted + hdr.size,
          created := appendFile s.created (s.outputFile.getD [])
            (storedLoop (chunkAvail e s) hdr.size s.buffer 1).2.2 } := by
  simp only [processData]
  rw [if_pos hopt]

theorem processData_comp_abort (e : Env) (s : St) (hdr : ChunkHeader)
    (hopt1 : hdr.options = 1) (hcb : (growC e s hdr).1 = none) :
    processData e s hdr = Outcome.abortCalled := by
  simp only [processData]
  rw [if_neg (by simp [hopt1]), if_pos hopt1, hcb]

theorem processData_comp_csfail (e : Env) (s : St) (hdr : ChunkHeader)
    (hopt1 : hdr.options = 1) (cb : List Nat)
    (hcb : (growC e s hdr).1 = some cb)
    (hcs : update_adler32 1
        ((freadInto cb ((chunkAvail e s).take hdr.size)).take hdr.size) ≠
      hdr.checksum) :
    processData e s hdr =
      Outcome.next { s with
        compressedBuf := some (freadInto cb ((chunkAvail e s).take hdr.size)),
        compressedBufsize := (growC e s hdr).2.1,
        decompressedBuf := (growD e s hdr).1,
        decompressedBufsize := (growD e s hdr).2.1,
        allocCount := s.allocCount + (growC e s hdr).2.2 + (growD e s hdr).2.2,
        totalExtracted := s.totalExtracted + hdr.extra,
        fOpen := false, outputFile := none } := by
  simp only [processData]
  rw [if_neg (by simp [hopt1]), if_pos hopt1, hcb]
  simp only [if_pos hcs]

theorem processData_comp_nullbuf (e : Env) (s : St) (hdr : ChunkHeader)
    (hopt1 : hdr.options = 1) (cb : List Nat)
    (hcb : (growC e s hdr).1 = some cb)
    (hcs : update_adler32 1
        ((freadInto cb ((chunkAvail e s).take hdr.size)).take hdr.size) =
      hdr.checksum)
    (hdb : (growD e s hdr).1 = none) :
    processData e s hdr = Outcome.nullDeref := by
  simp only [processData]
  rw [if_neg (by simp [hopt1]), if_pos hopt1, hcb]
  simp only [if_neg (not_not_intro hcs), hdb]

theorem processData_comp_decfail (e : Env) (s : St) (hdr : ChunkHeader)
    (hopt1 : hdr.options = 1) (cb db : List Nat)
    (hcb : (growC e s hdr).1 = some cb)
    (hcs : update_adler32 1
        ((freadInto cb ((chunkAvail e s).take hdr.size)).take hdr.size) =
      hdr.checksum)
    (hdb : (growD e s hdr).1 = some db)
    (hdec : (e.decompress
        ((freadInto cb ((chunkAvail e s).take hdr.size)).take hdr.size)
        hdr.extra).1 ≠ (hdr.extra : Int)) :
    processData e s hdr =
      Outcome.next { s with
        compressedBuf := some (freadInto cb ((chunkAvail e s).take hdr.size)),
        compressedBufsize := (growC e s hdr).2.1,
        decompressedBuf := (growD e s hdr).1,
        decompressedBufsize := (growD e s hdr).2.1,
        allocCount := s.allocCount + (growC e s hdr).2.2 + (growD e s hdr).2.2,
        totalExtracted := s.totalExtracted + hdr.extra,
        fOpen := false, outputFile := none } := by
  simp only [processData]
  rw [if_neg (by simp [hopt1]), if_pos hopt1, hcb]
  simp only [if_neg (not_not_intro hcs), hdb]
  simp only [if_pos hdec]

theorem processData_comp_ok (e : Env) (s : St) (hdr : ChunkHeader)
    (hopt1 : hdr.options = 1) (cb db : List Nat)
    (hcb : (growC e s hdr).1 = some cb)
    (hcs : update_adler32 1
        ((freadInto cb ((chunkAvail e s).take hdr.size)).take hdr.size) =
      hdr.checksum)
    (hdb : (growD e s hdr).1 = some db)
    (hdec : (e.decompress
        ((freadInto cb ((chunkAvail e s).take hdr.size)).take hdr.size)
        hdr.extra).1 = (hdr.extra : Int)) :
    processData e s hdr =
      Outcome.next { s with
        compressedBuf := some (freadInto cb ((chunkAvail e s).take hdr.size)),
        compressedBufsize := (growC e s hdr).2.1,
        decompressedBuf := some (freadInto db
          ((e.decompress
            ((freadInto cb ((chunkAvail e s).take hdr.size)).take hdr.size)
            hdr.extra).2.take hdr.extra)),
        decompressedBufsize := (growD e s hdr).2.1,
        allocCount := s.allocCount + (growC e s hdr).2.2 + (growD e s hdr).2.2,
        totalExtracted := s.totalExtracted + hdr.extra,
        created := appendFile s.created (s.outputFile.getD [])
          ((freadInto db
            ((e.decompress
              ((freadInto cb ((chunkAvail e s).take hdr.size)).take hdr.size)
              hdr.extra).2.take hdr.extra)).take hdr.extra) } := by
  simp only [processData]
  rw [if_neg (by simp [hopt1]), if_pos hopt1, hcb]
  simp only [if_neg (not_not_intro hcs), hdb]
  simp only [if_neg (not_not_intro hdec)]

theorem processData_unknown (e : Env) (s : St) (hdr : ChunkHeader)
    (hopt0 : hdr.options ≠ 0) (hopt1 : hdr.options ≠ 1) :
    processData e s hdr =
      Outcome.next { s with fOpen := false, outputFile := none } := by
  simp only [processData]
  rw [if_neg hopt0, if_neg hopt1]

/-- C4: update_adler32 seeded with 1 returns 1 on empty input; it is
associative across chunked calls, update(update(1,A),B) = update(1,A++B)
for every split; and on nonempty input the final value is formed as
(s2 << 16) | s1 from the two running accumulators, each reduced modulo
65521. -/
theorem c4_adler_chunked :
    update_adler32 1 [] = 1 ∧
    (∀ A B : List Nat,
      update_adler32 (update_adler32 1 A) B = update_adler32 1 (A ++ B)) ∧
    (∀ l : List Nat, l ≠ [] →
      update_adler32 1 l =
        ((adlerBytes 1 0 l).2 % 65521) * 65536 + (adlerBytes 1 0 l).1 % 65521) := by
  refine ⟨by decide, ?_, ?_⟩
  · intro A B
    cases hA : A with
    | nil => simp [update_adler32, adlerGo]
    | cons a ta =>
      cases hB : B with
      | nil =>
        rw [List.append_nil]
        exact update_adler32_empty _ (update_adler32_lt 1 (a :: ta))
      | cons b tb =>
        have hc := update_adler32_ne_nil 1 (a :: ta) (by simp)
        norm_num at hc
        rw [hc]
        rw [update_adler32_ne_nil _ (b :: tb) (by simp)]
        rw [update_adler32_ne_nil 1 ((a :: ta) ++ (b :: tb)) (by simp)]
        norm_num
        have e1 : ((adlerBytes 1 0 (a :: ta)).2 % 65521 * 65536 +
            (adlerBytes 1 0 (a :: ta)).1 % 65521) % 65536 =
            (adlerBytes 1 0 (a :: ta)).1 % 65521 := by omega
        have e2 : ((adlerBytes 1 0 (a :: ta)).2 % 65521 * 65536 +
            (adlerBytes 1 0 (a :: ta)).1 % 65521) / 65536 % 65536 =
            (adlerBytes 1 0 (a :: ta)).2 % 65521 := by omega
        rw [e1, e2]
        have hcg := adlerBytes_mod_congr (b :: tb)
          ((adlerBytes 1 0 (a :: ta)).1 % 65521)
          ((adlerBytes 1 0 (a :: ta)).2 % 65521)
          (adlerBytes 1 0 (a :: ta)).1 (adlerBytes 1 0 (a :: ta)).2
          (by omega) (by omega)
        rw [hcg.1, hcg.2, ← adlerBytes_append]
        simp
  · intro l h
    have := update_adler32_ne_nil 1 l h
    norm_num at this
    exact this

/-- C4 witness: the three conjuncts instantiated at concrete byte
lists. -/
theorem c4_adler_chunked_witness :
    update_adler32 (update_adler32 1 [10, 20]) [30] =
      update_adler32 1 ([10, 20] ++ [30]) ∧
    ([30] : List Nat) ≠ [] ∧
    update_adler32 1 [30] =
      ((adlerBytes 1 0 [30]).2 % 65521) * 65536 + (adlerBytes 1 0 [30]).1 % 65521 :=
  ⟨c4_adler_chunked.2.1 [10, 20] [30], by decide,
    c4_adler_chunked.2.2 [30] (by decide)⟩

/-- C10 counterexample: update_adler32 is not the identity on empty
input for every seed value of its unsigned long argument; at seed 2^32
it returns the reassembled low 32 bits, 0, not the seed. -/
theorem c10_empty_seed_counterexample :
    update_adler32 4294967296 [] ≠ 4294967296 := by decide

/-- C10 amended: on empty input update_adler32 returns the seed
unchanged for every seed below 2^32 (for larger seeds it returns the
reassembly of the low 32 bits of the seed); on nonempty input the low and
high 16 bits of the result are each strictly below 65521. -/
theorem c10_amended_canonical :
    (∀ c : Nat, c < 4294967296 → update_adler32 c [] = c) ∧
    (∀ (c : Nat) (l : List Nat), l ≠ [] →
      update_adler32 c l % 65536 < 65521 ∧ update_adler32 c l / 65536 < 65521) := by
  constructor
  · exact fun c h => update_adler32_empty c h
  · intro c l h
    rw [update_adler32_ne_nil c l h]
    have h1 := Nat.mod_lt (adlerBytes (c % 65536) (c / 65536 % 65536) l).1
      (y := 65521) (by omega)
    have h2 := Nat.mod_lt (adlerBytes (c % 65536) (c / 65536 % 65536) l).2
      (y := 65521) (by omega)
    omega

/-- C10 witness: both amended conjuncts instantiated concretely. -/
theorem c10_amended_canonical_witness :
    (12345 : Nat) < 4294967296 ∧ update_adler32 12345 [] = 12345 ∧
    ([9] : List Nat) ≠ [] ∧
    (update_adler32 7 [9] % 65536 < 65521 ∧ update_adler32 7 [9] / 65536 < 65521) :=
  ⟨by decide, c10_amended_canonical.1 12345 (by decide), by decide,
    c10_amended_canonical.2 7 [9] (by decide)⟩

/-- C5: decoding the 16-byte little-endian encoding of any header tuple
whose id and options fit in 16 bits and whose size, checksum and extra
fit in 32 bits returns exactly the original tuple. -/
theorem c5_header_roundtrip (h : ChunkHeader)
    (hid : h.id < 65536) (hopt : h.options < 65536)
    (hsz : h.size < 4294967296) (hck : h.checksum < 4294967296)
    (hex : h.extra < 4294967296) :
    read_chunk_header (encode_chunk_header h) = h := by
  obtain ⟨i, o, sz, ck, ex⟩ := h
  have hi : i < 65536 := hid
  have ho : o < 65536 := hopt
  have hs : sz < 4294967296 := hsz
  have hc : ck < 4294967296 := hck
  have he : ex < 4294967296 := hex
  show ChunkHeader.mk
    ((i % 256 + i / 256 % 256 * 256) % 65536)
    ((o % 256 + o / 256 % 256 * 256) % 65536)
    ((sz % 256 + sz / 256 % 256 * 256 + sz / 65536 % 256 * 65536 +
        sz / 16777216 % 256 * 16777216) % 4294967296)
    ((ck % 256 + ck / 256 % 256 * 256 + ck / 65536 % 256 * 65536 +
        ck / 16777216 % 256 * 16777216) % 4294967296)
    ((ex % 256 + ex / 256 % 256 * 256 + ex / 65536 % 256 * 65536 +
        ex / 16777216 % 256 * 16777216) % 4294967296) = ChunkHeader.mk i o sz ck ex
  simp only [ChunkHeader.mk.injEq]
  refine ⟨by omega, by omega, by omega, by omega, by omega⟩

/-- C5 witness: the round-trip at a concrete header tuple. -/
theorem c5_header_roundtrip_witness :
    (1 : Nat) < 65536 ∧
    read_chunk_header (encode_chunk_header ⟨1, 17, 70000, 123456789, 42⟩) =
      ⟨1, 17, 70000, 123456789, 42⟩ :=
  ⟨by decide, c5_header_roundtrip ⟨1, 17, 70000, 123456789, 42⟩
    (by decide) (by decide) (by decide) (by decide) (by decide)⟩

/-- C6: detect_magic always leaves the stream at its start, and returns
true exactly when the stream is at least 8 bytes long and its first 8
bytes equal the fixed signature; a short stream or any mismatching byte
yields false. -/
theorem c6_detect_magic (s : Stream) :
    (detect_magic s).2 = { data := s.data, pos := 0 } ∧
    ((detect_magic s).1 = true ↔ s.data.take 8 = sixpack_magic) := by
  constructor
  · simp only [detect_magic]
    split <;> rfl
  · simp only [detect_magic]
    by_cases hlen : (s.data.take 8).length < 8
    · rw [if_pos hlen]
      constructor
      · intro hf
        exact absurd hf Bool.false_ne_true
      · intro hEq
        rw [hEq] at hlen
        simp [sixpack_magic] at hlen
    · rw [if_neg hlen]
      have h8 : (s.data.take 8).length = 8 := by
        have := List.length_take 8 s.data
        omega
      constructor
      · intro hall
        simp only [List.all_eq_true, List.mem_range, beq_iff_eq] at hall
        apply List.ext_getElem (by simp [sixpack_magic, h8])
        intro n h1 h2
        have hn : n < 8 := by omega
        have := hall n hn
        rw [List.getD_eq_getElem _ 0 h1, List.getD_eq_getElem _ 0 h2] at this
        exact this
      · intro hEq
        rw [hEq]
        show ((List.range 8).all
          fun c => sixpack_magic.getD c 0 == sixpack_magic.getD c 0) = true
        decide

/-- C1: when the loop meets a chunk with id 1 and 10 < size <
BLOCK_SIZE whose payload Adler-32 checksum (seeded with 1) differs from
the header checksum field, the run stops immediately with the failure
result (return -1), no further chunks are processed, and the set of
output files created so far is left exactly as it was. -/
theorem c1_entry_checksum_fatal (e : Env) (s : St)
    (hpos : s.pos < e.arch.length)
    (hid : (headerAt e.arch s.pos).id = 1)
    (h10 : 10 < (headerAt e.arch s.pos).size)
    (hbs : (headerAt e.arch s.pos).size < BLOCK_SIZE)
    (hfit : s.pos + 16 + (headerAt e.arch s.pos).size ≤ e.arch.length)
    (hcs : update_adler32 1
        (payloadAt e.arch s.pos (headerAt e.arch s.pos).size) ≠
      (headerAt e.arch s.pos).checksum) :
    RunResult.isFatal (loop e s) = true ∧
      RunResult.createdOf (loop e s) = s.created := by
  rw [loop_eq, if_pos hpos, step_entry e s hid h10 hbs,
    processFileEntry_mismatch e s _ hfit hcs]
  exact ⟨rfl, rfl⟩

/-- C1 witness: a concrete archive whose file-entry chunk carries the
wrong checksum 9999 makes the run fail with nothing created. -/
theorem c1_entry_checksum_fatal_witness :
    (8 : Nat) < envC1.arch.length ∧
    (headerAt envC1.arch 8).id = 1 ∧
    10 < (headerAt envC1.arch 8).size ∧
    (headerAt envC1.arch 8).size < BLOCK_SIZE ∧
    8 + 16 + (headerAt envC1.arch 8).size ≤ envC1.arch.length ∧
    update_adler32 1 (payloadAt envC1.arch 8 (headerAt envC1.arch 8).size) ≠
      (headerAt envC1.arch 8).checksum ∧
    (RunResult.isFatal (loop envC1 { emptySt with pos := 8 }) = true ∧
      RunResult.createdOf (loop envC1 { emptySt with pos := 8 }) = []) :=
  ⟨by decide, by decide, by decide, by decide, by decide, by decide,
    c1_entry_checksum_fatal envC1 { emptySt with pos := 8 }
      (by decide) (by decide) (by decide) (by decide) (by decide) (by decide)⟩

/-- C3: on every iteration with the stream not exhausted, if the chunk
body yields a continuation state, the next iteration runs at exactly
pos + 16 + size (size from the header just decoded), which is at least
pos + 16; moreover the loop result is independent of the fuel bound as
soon as the fuel exceeds the remaining byte count, which is the
termination of the loop on every finite stream. -/
theorem c3_chunk_advance (e : Env) (s : St) :
    (s.pos < e.arch.length →
      (∀ s2, step e s = Outcome.next s2 →
        loop e s = loop e { s2 with
          pos := s.pos + 16 + (headerAt e.arch s.pos).size }) ∧
      s.pos + 16 ≤ s.pos + 16 + (headerAt e.arch s.pos).size) ∧
    (∀ fuel, e.arch.length - s.pos < fuel → loopF fuel e s = loop e s) := by
  refine ⟨fun hpos => ⟨fun s2 hstep => ?_, by omega⟩, fun fuel hf => ?_⟩
  · rw [loop_eq, if_pos hpos, hstep]
  · exact loopF_congr e fuel (e.arch.length + 1) s hf (by omega)

/-- C3 witness: the advance equation and fuel independence at a
concrete 20-byte stream whose first chunk is skipped. -/
theorem c3_chunk_advance_witness :
    (0 : Nat) < envC3.arch.length ∧
    step envC3 emptySt = Outcome.next emptySt ∧
    loop envC3 emptySt = loop envC3 { emptySt with
      pos := 0 + 16 + (headerAt envC3.arch 0).size } ∧
    envC3.arch.length - emptySt.pos < 21 ∧
    loopF 21 envC3 emptySt = loop envC3 emptySt :=
  ⟨by decide, by decide,
    ((c3_chunk_advance envC3 emptySt).1 (by decide)).1 emptySt (by decide),
    by decide, (c3_chunk_advance envC3 emptySt).2 21 (by decide)⟩

/-- C7: for a passing file-entry chunk, the output file name the code
builds is the payload bytes starting at offset 10, of length exactly
min(name_length, size - 10) where name_length is the u16 at payload
offset 8; an oversized name_length is clamped and the chunk is still
processed normally (the outcome is a continuation, never an error),
and on the creation path that exact name becomes the open output
file. -/
theorem c7_name_clamp (e : Env) (s : St)
    (_hpos : s.pos < e.arch.length)
    (hid : (headerAt e.arch s.pos).id = 1)
    (h10 : 10 < (headerAt e.arch s.pos).size)
    (hbs : (headerAt e.arch s.pos).size < BLOCK_SIZE)
    (hfit : s.pos + 16 + (headerAt e.arch s.pos).size ≤ e.arch.length)
    (hcs : update_adler32 1
        (payloadAt e.arch s.pos (headerAt e.arch s.pos).size) =
      (headerAt e.arch s.pos).checksum)
    (halloc : e.allocOk s.allocCount = true) :
    Outcome.isNext (step e s) = true ∧
    entryName e s (headerAt e.arch s.pos) =
      ((payloadAt e.arch s.pos (headerAt e.arch s.pos).size).drop 10).take
        (min (readU16 ((payloadAt e.arch s.pos
            (headerAt e.arch s.pos).size).drop 8))
          ((headerAt e.arch s.pos).size - 10)) ∧
    (entryName e s (headerAt e.arch s.pos)).length =
      min (readU16 ((payloadAt e.arch s.pos
          (headerAt e.arch s.pos).size).drop 8))
        ((headerAt e.arch s.pos).size - 10) ∧
    (entryName e s (headerAt e.arch s.pos) ∉ e.preexist →
      entryName e s (headerAt e.arch s.pos) ∉ s.created.map Prod.fst →
      e.canCreate (entryName e s (headerAt e.arch s.pos)) = true →
      (step e s).stOf.outputFile = some (entryName e s (headerAt e.arch s.pos))) := by
  have hmin : ∀ a b : Nat, (if a > b then b else a) = min a b := by
    intro a b; split <;> omega
  have hplen := (got_eq_payload e s (headerAt e.arch s.pos).size hfit).2
  rw [step_entry e s hid h10 hbs, processFileEntry_ok e s _ hfit hcs halloc]
  refine ⟨?_, ?_, ?_, ?_⟩
  · split
    · rfl
    · split <;> rfl
  · simp only [entryName, hmin]
  · simp only [entryName, hmin, List.length_take, List.length_drop, hplen]
    omega
  · intro h1 h2 h3
    rw [if_neg (not_or.mpr ⟨h1, h2⟩), if_neg (by simp [h3])]
    rfl

/-- C7 witness: a concrete passing entry with name_length 1 within a
12-byte entry payload; the created file name is the single byte 97. -/
theorem c7_name_clamp_witness :
    (8 : Nat) < envC7.arch.length ∧
    (headerAt envC7.arch 8).id = 1 ∧
    10 < (headerAt envC7.arch 8).size ∧
    (headerAt envC7.arch 8).size < BLOCK_SIZE ∧
    8 + 16 + (headerAt envC7.arch 8).size ≤ envC7.arch.length ∧
    update_adler32 1 (payloadAt envC7.arch 8 (headerAt envC7.arch 8).size) =
      (headerAt envC7.arch 8).checksum ∧
    envC7.allocOk 0 = true ∧
    (Outcome.isNext (step envC7 { emptySt with pos := 8 }) = true ∧
      entryName envC7 { emptySt with pos := 8 } (headerAt envC7.arch 8) =
        ((payloadAt envC7.arch 8 (headerAt envC7.arch 8).size).drop 10).take
          (min (readU16 ((payloadAt envC7.arch 8
              (headerAt envC7.arch 8).size).drop 8))
            ((headerAt envC7.arch 8).size - 10)) ∧
      (entryName envC7 { emptySt with pos := 8 } (headerAt envC7.arch 8)).length =
        min (readU16 ((payloadAt envC7.arch 8
            (headerAt envC7.arch 8).size).drop 8))
          ((headerAt envC7.arch 8).size - 10) ∧
      (entryName envC7 { emptySt with pos := 8 } (headerAt envC7.arch 8) ∉
          envC7.preexist →
        entryName envC7 { emptySt with pos := 8 } (headerAt envC7.arch 8) ∉
          (({ emptySt with pos := 8 } : St).created.map Prod.fst) →
        envC7.canCreate (entryName envC7 { emptySt with pos := 8 }
          (headerAt envC7.arch 8)) = true →
        (step envC7 { emptySt with pos := 8 }).stOf.outputFile =
          some (entryName envC7 { emptySt with pos := 8 }
            (headerAt envC7.arch 8)))) :=
  ⟨by decide, by decide, by decide, by decide, by decide, by decide, by decide,
    c7_name_clamp envC7 { emptySt with pos := 8 }
      (by decide) (by decide) (by decide) (by decide) (by decide) (by decide)
      (by decide)⟩

/-- C2: each per-chunk integrity error on an id 17 data chunk processed
with an open session - stored-payload checksum mismatch, compressed
payload checksum mismatch, decompression length mismatch, or an options
value other than 0 and 1 - yields a continuation (never a fatal result)
in which the output handle is closed and the session name released,
while no created file is removed (the partial file stays on disk); the
loop then proceeds to the next chunk, and a loop that reaches the end
of the stream returns success. -/
theorem c2_data_errors_recoverable :
    (∀ (e : Env) (s : St),
      s.pos < e.arch.length →
      (headerAt e.arch s.pos).id = 17 →
      s.fOpen = true → s.outputFile.isSome = true → s.decompressedSize ≠ 0 →
      (headerAt e.arch s.pos).options = 0 →
      (storedLoop (chunkAvail e s) (headerAt e.arch s.pos).size
          s.buffer 1).2.1 ≠ (headerAt e.arch s.pos).checksum →
      Outcome.isNext (step e s) = true ∧
      (step e s).stOf.fOpen = false ∧ (step e s).stOf.outputFile = none ∧
      (step e s).stOf.created.map Prod.fst = s.created.map Prod.fst ∧
      loop e s = loop e { (step e s).stOf with
        pos := s.pos + 16 + (headerAt e.arch s.pos).size }) ∧
    (∀ (e : Env) (s : St) (cb : List Nat),
      s.pos < e.arch.length →
      (headerAt e.arch s.pos).id = 17 →
      s.fOpen = true → s.outputFile.isSome = true → s.decompressedSize ≠ 0 →
      (headerAt e.arch s.pos).options = 1 →
      (growC e s (headerAt e.arch s.pos)).1 = some cb →
      update_adler32 1 ((freadInto cb ((chunkAvail e s).take
          (headerAt e.arch s.pos).size)).take (headerAt e.arch s.pos).size) ≠
        (headerAt e.arch s.pos).checksum →
      Outcome.isNext (step e s) = true ∧
      (step e s).stOf.fOpen = false ∧ (step e s).stOf.outputFile = none ∧
      (step e s).stOf.created.map Prod.fst = s.created.map Prod.fst ∧
      loop e s = loop e { (step e s).stOf with
        pos := s.pos + 16 + (headerAt e.arch s.pos).size }) ∧
    (∀ (e : Env) (s : St) (cb db : List Nat),
      s.pos < e.arch.length →
      (headerAt e.arch s.pos).id = 17 →
      s.fOpen = true → s.outputFile.isSome = true → s.decompressedSize ≠ 0 →
      (headerAt e.arch s.pos).options = 1 →
      (growC e s (headerAt e.arch s.pos)).1 = some cb →
      update_adler32 1 ((freadInto cb ((chunkAvail e s).take
          (headerAt e.arch s.pos).size)).take (headerAt e.arch s.pos).size) =
        (headerAt e.arch s.pos).checksum →
      (growD e s (headerAt e.arch s.pos)).1 = some db →
      (e.decompress ((freadInto cb ((chunkAvail e s).take
          (headerAt e.arch s.pos).size)).take (headerAt e.arch s.pos).size)
        (headerAt e.arch s.pos).extra).1 ≠
        ((headerAt e.arch s.pos).extra : Int) →
      Outcome.isNext (step e s) = true ∧
      (step e s).stOf.fOpen = false ∧ (step e s).stOf.outputFile = none ∧
      (step e s).stOf.created.map Prod.fst = s.created.map Prod.fst ∧
      loop e s = loop e { (step e s).stOf with
        pos := s.pos + 16 + (headerAt e.arch s.pos).size }) ∧
    (∀ (e : Env) (s : St),
      s.pos < e.arch.length →
      (headerAt e.arch s.pos).id = 17 →
      s.fOpen = true → s.outputFile.isSome = true → s.decompressedSize ≠ 0 →
      (headerAt e.arch s.pos).options ≠ 0 →
      (headerAt e.arch s.pos).options ≠ 1 →
      Outcome.isNext (step e s) = true ∧
      (step e s).stOf.fOpen = false ∧ (step e s).stOf.outputFile = none ∧
      (step e s).stOf.created.map Prod.fst = s.created.map Prod.fst ∧
      loop e s = loop e { (step e s).stOf with
        pos := s.pos + 16 + (headerAt e.arch s.pos).size }) ∧
    (∀ (e : Env) (s : St), ¬ s.pos < e.arch.length →
      loop e s = RunResult.ok s) := by
  refine ⟨?_, ?_, ?_, ?_, ?_⟩
  · intro e s hpos hid hf ho hd hopt hcs
    have hstep := step_data e s hid hf ho hd
    rw [processData_stored e s _ hopt, if_pos hcs] at hstep
    exact ⟨by rw [hstep]; rfl, by rw [hstep]; rfl, by rw [hstep]; rfl,
      by rw [hstep]; exact appendFile_map_fst _ _ _,
      loop_next e s hpos (by rw [hstep]; rfl)⟩
  · intro e s cb hpos hid hf ho hd hopt1 hcb hcs
    have hstep := step_data e s hid hf ho hd
    rw [processData_comp_csfail e s _ hopt1 cb hcb hcs] at hstep
    exact ⟨by rw [hstep]; rfl, by rw [hstep]; rfl, by rw [hstep]; rfl,
      by rw [hstep]; rfl,
      loop_next e s hpos (by rw [hstep]; rfl)⟩
  · intro e s cb db hpos hid hf ho hd hopt1 hcb hcs hdb hdec
    have hstep := step_data e s hid hf ho hd
    rw [processData_comp_decfail e s _ hopt1 cb db hcb hcs hdb hdec] at hstep
    exact ⟨by rw [hstep]; rfl, by rw [hstep]; rfl, by rw [hstep]; rfl,
      by rw [hstep]; rfl,
      loop_next e s hpos (by rw [hstep]; rfl)⟩
  · intro e s hpos hid hf ho hd hopt0 hopt1
    have hstep := step_data e s hid hf ho hd
    rw [processData_unknown e s _ hopt0 hopt1] at hstep
    exact ⟨by rw [hstep]; rfl, by rw [hstep]; rfl, by rw [hstep]; rfl,
      by rw [hstep]; rfl,
      loop_next e s hpos (by rw [hstep]; rfl)⟩
  · intro e s hpos
    rw [loop_eq, if_neg hpos]

/-- C2 witness: one concrete scenario per error kind - a stored chunk
with a bad checksum, a compressed chunk with a bad checksum, a
compressed chunk whose decompression returns 3 of 7 bytes, a chunk
with options 2 - and one exhausted-stream success. -/
theorem c2_data_errors_recoverable_witness :
    (stOpen.pos < envC2a.arch.length ∧
     (headerAt envC2a.arch stOpen.pos).id = 17 ∧
     stOpen.fOpen = true ∧ stOpen.outputFile.isSome = true ∧
     stOpen.decompressedSize ≠ 0 ∧
     (headerAt envC2a.arch stOpen.pos).options = 0 ∧
     (storedLoop (chunkAvail envC2a stOpen)
        (headerAt envC2a.arch stOpen.pos).size stOpen.buffer 1).2.1 ≠
       (headerAt envC2a.arch stOpen.pos).checksum ∧
     (Outcome.isNext (step envC2a stOpen) = true ∧
      (step envC2a stOpen).stOf.fOpen = false ∧
      (step envC2a stOpen).stOf.outputFile = none ∧
      (step envC2a stOpen).stOf.created.map Prod.fst =
        stOpen.created.map Prod.fst ∧
      loop envC2a stOpen = loop envC2a { (step envC2a stOpen).stOf with
        pos := stOpen.pos + 16 + (headerAt envC2a.arch stOpen.pos).size })) ∧
    ((growC envC2b stOpen (headerAt envC2b.arch stOpen.pos)).1 =
       some (List.replicate 4 0) ∧
     update_adler32 1 ((freadInto (List.replicate 4 0)
        ((chunkAvail envC2b stOpen).take
          (headerAt envC2b.arch stOpen.pos).size)).take
        (headerAt envC2b.arch stOpen.pos).size) ≠
       (headerAt envC2b.arch stOpen.pos).checksum ∧
     (Outcome.isNext (step envC2b stOpen) = true ∧
      (step envC2b stOpen).stOf.fOpen = false ∧
      (step envC2b stOpen).stOf.outputFile = none ∧
      (step envC2b stOpen).stOf.created.map Prod.fst =
        stOpen.created.map Prod.fst ∧
      loop envC2b stOpen = loop envC2b { (step envC2b stOpen).stOf with
        pos := stOpen.pos + 16 + (headerAt envC2b.arch stOpen.pos).size })) ∧
    ((growD envC2c stOpen (headerAt envC2c.arch stOpen.pos)).1 =
       some (List.replicate 7 0) ∧
     (envC2c.decompress ((freadInto (List.replicate 4 0)
        ((chunkAvail envC2c stOpen).take
          (headerAt envC2c.arch stOpen.pos).size)).take
        (headerAt envC2c.arch stOpen.pos).size)
       (headerAt envC2c.arch stOpen.pos).extra).1 ≠
       ((headerAt envC2c.arch stOpen.pos).extra : Int) ∧
     (Outcome.isNext (step envC2c stOpen) = true ∧
      (step envC2c stOpen).stOf.fOpen = false ∧
      (step envC2c stOpen).stOf.outputFile = none ∧
      (step envC2c stOpen).stOf.created.map Prod.fst =
        stOpen.created.map Prod.fst ∧
      loop envC2c stOpen = loop envC2c { (step envC2c stOpen).stOf with
        pos := stOpen.pos + 16 + (headerAt envC2c.arch stOpen.pos).size })) ∧
    ((headerAt envC2d.arch stOpen.pos).options ≠ 0 ∧
     (headerAt envC2d.arch stOpen.pos).options ≠ 1 ∧
     (Outcome.isNext (step envC2d stOpen) = true ∧
      (step envC2d stOpen).stOf.fOpen = false ∧
      (step envC2d stOpen).stOf.outputFile = none ∧
      (step envC2d stOpen).stOf.created.map Prod.fst =
        stOpen.created.map Prod.fst ∧
      loop envC2d stOpen = loop envC2d { (step envC2d stOpen).stOf with
        pos := stOpen.pos + 16 + (headerAt envC2d.arch stOpen.pos).size })) ∧
    (¬ ({ emptySt with pos := 50 } : St).pos < envC3.arch.length ∧
     loop envC3 { emptySt with pos := 50 } =
       RunResult.ok { emptySt with pos := 50 }) :=
  ⟨⟨by decide, by decide, by decide, by decide, by decide, by decide, by decide,
    c2_data_errors_recoverable.1 envC2a stOpen (by decide) (by decide)
      (by decide) (by decide) (by decide) (by decide) (by decide)⟩,
   ⟨by decide, by decide,
    c2_data_errors_recoverable.2.1 envC2b stOpen (List.replicate 4 0)
      (by decide) (by decide) (by decide) (by decide) (by decide) (by decide)
      (by decide) (by decide)⟩,
   ⟨by decide, by decide,
    c2_data_errors_recoverable.2.2.1 envC2c stOpen (List.replicate 4 0)
      (List.replicate 7 0) (by decide) (by decide) (by decide) (by decide)
      (by decide) (by decide) (by decide) (by decide) (by decide) (by decide)⟩,
   ⟨by decide, by decide,
    c2_data_errors_recoverable.2.2.2.1 envC2d stOpen (by decide) (by decide)
      (by decide) (by decide) (by decide) (by decide) (by decide)⟩,
   ⟨by decide,
    c2_data_errors_recoverable.2.2.2.2 envC3 { emptySt with pos := 50 }
      (by decide)⟩⟩

/-- C9 counterexample: in envC9 the single data chunk fails its
checksum, so no decompressed bytes are ever written to the output file
(its content stays empty), yet total_extracted ends at 7 = extra,
because the source adds chunk_extra to total_extracted before
verifying the checksum; the run still ends with success. -/
theorem c9_total_counterexample :
    RunResult.isOk (unpack_file envC9) = true ∧
    RunResult.totalOf (unpack_file envC9) = 7 ∧
    RunResult.createdOf (unpack_file envC9) = [([97], [])] :=
  ⟨by decide, by decide, by decide⟩

/-- C9 amended: total_extracted is reset to 0 whenever a file entry
passes its checksum; on a dispatched id 17 chunk it increases by
chunk_size (stored) or chunk_extra (compressed) unconditionally, before
any verification - also when the chunk checksum or the decompression
length check subsequently fails - and stays unchanged on an unknown
options value. -/
theorem c9_total_accounting :
    (∀ (e : Env) (s : St),
      s.pos < e.arch.length →
      (headerAt e.arch s.pos).id = 1 →
      10 < (headerAt e.arch s.pos).size →
      (headerAt e.arch s.pos).size < BLOCK_SIZE →
      s.pos + 16 + (headerAt e.arch s.pos).size ≤ e.arch.length →
      update_adler32 1 (payloadAt e.arch s.pos (headerAt e.arch s.pos).size) =
        (headerAt e.arch s.pos).checksum →
      e.allocOk s.allocCount = true →
      (step e s).stOf.totalExtracted = 0) ∧
    (∀ (e : Env) (s : St),
      (headerAt e.arch s.pos).id = 17 →
      s.fOpen = true → s.outputFile.isSome = true → s.decompressedSize ≠ 0 →
      (headerAt e.arch s.pos).options = 0 →
      (step e s).stOf.totalExtracted =
        s.totalExtracted + (headerAt e.arch s.pos).size) ∧
    (∀ (e : Env) (s : St) (cb : List Nat),
      (headerAt e.arch s.pos).id = 17 →
      s.fOpen = true → s.outputFile.isSome = true → s.decompressedSize ≠ 0 →
      (headerAt e.arch s.pos).options = 1 →
      (growC e s (headerAt e.arch s.pos)).1 = some cb →
      update_adler32 1 ((freadInto cb ((chunkAvail e s).take
          (headerAt e.arch s.pos).size)).take (headerAt e.arch s.pos).size) ≠
        (headerAt e.arch s.pos).checksum →
      (step e s).stOf.totalExtracted =
        s.totalExtracted + (headerAt e.arch s.pos).extra) ∧
    (∀ (e : Env) (s : St) (cb db : List Nat),
      (headerAt e.arch s.pos).id = 17 →
      s.fOpen = true → s.outputFile.isSome = true → s.decompressedSize ≠ 0 →
      (headerAt e.arch s.pos).options = 1 →
      (growC e s (headerAt e.arch s.pos)).1 = some cb →
      update_adler32 1 ((freadInto cb ((chunkAvail e s).take
          (headerAt e.arch s.pos).size)).take (headerAt e.arch s.pos).size) =
        (headerAt e.arch s.pos).checksum →
      (growD e s (headerAt e.arch s.pos)).1 = some db →
      (step e s).stOf.totalExtracted =
        s.totalExtracted + (headerAt e.arch s.pos).extra) ∧
    (∀ (e : Env) (s : St),
      (headerAt e.arch s.pos).id = 17 →
      s.fOpen = true → s.outputFile.isSome = true → s.decompressedSize ≠ 0 →
      (headerAt e.arch s.pos).options ≠ 0 →
      (headerAt e.arch s.pos).options ≠ 1 →
      (step e s).stOf.totalExtracted = s.totalExtracted) := by
  refine ⟨?_, ?_, ?_, ?_, ?_⟩
  · intro e s hpos hid h10 hbs hfit hcs halloc
    rw [step_entry e s hid h10 hbs, processFileEntry_ok e s _ hfit hcs halloc]
    split
    · rfl
    · split <;> rfl
  · intro e s hid hf ho hd hopt
    rw [step_data e s hid hf ho hd, processData_stored e s _ hopt]
    split <;> rfl
  · intro e s cb hid hf ho hd hopt1 hcb hcs
    rw [step_data e s hid hf ho hd,
      processData_comp_csfail e s _ hopt1 cb hcb hcs]
    rfl
  · intro e s cb db hid hf ho hd hopt1 hcb hcs hdb
    by_cases hdec : (e.decompress ((freadInto cb ((chunkAvail e s).take
        (headerAt e.arch s.pos).size)).take (headerAt e.arch s.pos).size)
        (headerAt e.arch s.pos).extra).1 = ((headerAt e.arch s.pos).extra : Int)
    · rw [step_data e s hid hf ho hd,
        processData_comp_ok e s _ hopt1 cb db hcb hcs hdb hdec]
      rfl
    · rw [step_data e s hid hf ho hd,
        processData_comp_decfail e s _ hopt1 cb db hcb hcs hdb hdec]
      rfl
  · intro e s hid hf ho hd hopt0 hopt1
    rw [step_data e s hid hf ho hd, processData_unknown e s _ hopt0 hopt1]
    rfl

/-- C9 witness for the amended statement: the five accounting cases at
the concrete scenarios. -/
theorem c9_total_accounting_witness :
    ((step envC7 { emptySt with pos := 8 }).stOf.totalExtracted = 0) ∧
    ((step envC2a stOpen).stOf.totalExtracted =
      stOpen.totalExtracted + (headerAt envC2a.arch stOpen.pos).size) ∧
    ((step envC2b stOpen).stOf.totalExtracted =
      stOpen.totalExtracted + (headerAt envC2b.arch stOpen.pos).extra) ∧
    ((step envC2c stOpen).stOf.totalExtracted =
      stOpen.totalExtracted + (headerAt envC2c.arch stOpen.pos).extra) ∧
    ((step envC2d stOpen).stOf.totalExtracted = stOpen.totalExtracted) :=
  ⟨c9_total_accounting.1 envC7 { emptySt with pos := 8 } (by decide) (by decide)
      (by decide) (by decide) (by decide) (by decide) (by decide),
   c9_total_accounting.2.1 envC2a stOpen (by decide) (by decide) (by decide)
      (by decide) (by decide),
   c9_total_accounting.2.2.1 envC2b stOpen (List.replicate 4 0) (by decide)
      (by decide) (by decide) (by decide) (by decide) (by decide) (by decide),
   c9_total_accounting.2.2.2.1 envC2c stOpen (List.replicate 4 0)
      (List.replicate 7 0) (by decide) (by decide) (by decide) (by decide)
      (by decide) (by decide) (by decide) (by decide),
   c9_total_accounting.2.2.2.2 envC2d stOpen (by decide) (by decide)
      (by decide) (by decide) (by decide) (by decide)⟩

/-- C8: evaluation at the failing inputs.  In envC8a the malloc for the
decompressed-output buffer fails on a compressed chunk, and the run
does not abort before using the buffer: it reaches the undefined
behavior of calling fastlz_decompress with the null output buffer
(the null check sits after the decompress call).  For the
compressed-input buffer (envC8b) the claim holds: a failed malloc
aborts before any use. -/
theorem c8_alloc_failure_eval :
    unpack_file envC8a = RunResult.undef ∧
    unpack_file envC8b = RunResult.aborted :=
  ⟨by decide, by decide⟩

end SixPack
